import Mathlib

/-!
Verification of the engagement engine of the agentic honeypot scam-detection
service (`app.py`): classifier (`detect_scam`), extractor
(`extract_intelligence`), response selector (`get_agent_response`),
conversation store (`manage_conversation`), and the notification trigger
inside `process_message`.

The embedding works over `List Char` texts.  Python regular-expression
searches are translated by their semantics on the concrete patterns the
source uses (all of which are alternations of literals, literal runs with
word boundaries, or greedy character-class scans).  Character classes are
exact on ASCII (`wordChar` is `[A-Za-z0-9_]`, Python's `\w` restricted to
ASCII); because Python's `\w` and `\d` are Unicode-aware, the `\b`
boundary model (`nonWordB`) accepts a boundary only next to an absent or
ASCII non-word character — a sound under-approximation of Python's `\b`
(every accepted boundary is real; next to non-ASCII characters the model
abstains and omits the match), and likewise the UPI local-part class is
ASCII, so on non-ASCII input the extraction model can only omit, never
invent, matches; no theorem below relies on an omitted match.
Floating-point pattern weights (0.4, 0.5, 0.4 against threshold 0.7 and cap
1.0) are exact multiples of 1/10 and are modelled as integer tenths with a
rational view (`confidenceQ`): no attainable score lies close enough to a
threshold for IEEE rounding to change any comparison the code makes.
Python's `list(set(xs))` on hashable elements is modelled as `List.dedup`
(the claims treat these lists as sets, so element order is irrelevant);
`set()` applied to a list that contains a `dict` raises `TypeError`, which
the store model surfaces as a `none` result together with the partially
mutated conversation, exactly as the in-place mutation in the source leaves
it.  The process-wide `conversations` map is keyed by conversation id and a
request touches only its own entry, so the embedding models the slice of
state belonging to one fixed conversation id as an `Option Conv`.
`random.choice` over the non-empty reply pool is modelled by an injected
index `pick` (reduced modulo the pool size), and the outbound HTTP call by
an injected `outcome : Option Nat` (`some status`, or `none` for a raised
transport exception).
-/

namespace Honeypot

/-- ASCII lower-casing of a text, Python's `text.lower()`. -/
def lower (text : List Char) : List Char := text.map Char.toLower

/-- `pfx n h`: the list `n` is a prefix of `h` (literal, case-sensitive). -/
def pfx : List Char → List Char → Bool
  | [], _ => true
  | _ :: _, [] => false
  | a :: as, b :: bs => a == b && pfx as bs

/-- `containsSub n h`: `n` occurs as a contiguous substring of `h`
(Python's `n in h` on strings / an anchored-literal `re.search`). -/
def containsSub (n : List Char) : List Char → Bool
  | [] => n.isEmpty
  | c :: cs => pfx n (c :: cs) || containsSub n cs

/-- Python `\w` on ASCII input: letters, digits, underscore. -/
def wordChar (c : Char) : Bool := c.isAlphanum || c == '_'

/-- A maximal run of characters satisfying a class predicate, together with
the characters adjacent to it (`none` at text start/end).  Used to give the
semantics of `\b`-anchored runs such as `\b\d{9,18}\b`. -/
structure Run where
  left : Option Char
  chars : List Char
  right : Option Char
deriving DecidableEq, Repr

/-- Scanner collecting all maximal runs of `p`-characters with their
boundary characters.  `left` is the character just before the run being
accumulated (reversed) in `acc`. -/
def runsGo (p : Char → Bool) (left : Option Char) (acc : List Char) :
    List Char → List Run
  | [] => if acc.isEmpty then [] else [⟨left, acc.reverse, none⟩]
  | c :: cs =>
    if p c then runsGo p left (c :: acc) cs
    else if acc.isEmpty then runsGo p (some c) [] cs
    else ⟨left, acc.reverse, some c⟩ :: runsGo p (some c) [] cs

/-- All maximal runs of decimal digits in `text`, with boundary characters. -/
def digitRuns (text : List Char) : List Run :=
  runsGo Char.isDigit none [] text

/-- Model of the `\b` anchor next to a digit run: the boundary is accepted
when the adjacent character is absent, or is an ASCII character that is
not a word character.  Python's `\b` consults Unicode `\w`; every ASCII
non-word character is also non-word for Python, so every boundary this
model accepts is one Python accepts.  Next to a non-ASCII character
(where membership in Unicode `\w` varies: `é` is a word character, `₹` is
not) the model conservatively refuses the boundary, so the scan omits —
never invents — a match.  Exact on ASCII text. -/
def nonWordB : Option Char → Bool
  | none => true
  | some c => decide (c.toNat < 128) && !wordChar c

/-- Both ends of a run sit on certified word boundaries (see `nonWordB`). -/
def boundOK (r : Run) : Bool := nonWordB r.left && nonWordB r.right

/-- Semantics of `re.findall(r'\b\d{9,18}\b', text)`: the maximal digit
runs of length 9–18 whose ends are word boundaries.  (A longer run cannot
match: the `\b` fails inside the run for every start and width the regex
could try.)  Exact on ASCII text; next to non-ASCII characters the
boundary model abstains and the match is omitted (see `nonWordB`).  A run
this model keeps is also maximal for Python's Unicode `\d`: extending it
would need a digit neighbor, and the certified neighbors are ASCII
non-word characters, hence not `\d`. -/
def bankFindall (text : List Char) : List (List Char) :=
  ((digitRuns text).filter fun r =>
    boundOK r && decide (9 ≤ r.chars.length) && decide (r.chars.length ≤ 18)).map (·.chars)

/-- First character is a digit in `[6-9]`. -/
def first6to9 : List Char → Bool
  | [] => false
  | c :: _ => '6' ≤ c && c ≤ '9'

/-- Semantics of `re.findall(r'\b[6-9]\d{9}\b', text)`: maximal digit runs
of length exactly 10 starting with 6–9, with word boundaries at both ends
(same boundary model and the same exact-on-ASCII, omit-on-non-ASCII
discipline as `bankFindall`). -/
def phoneFindall (text : List Char) : List (List Char) :=
  ((digitRuns text).filter fun r =>
    boundOK r && decide (r.chars.length = 10) && first6to9 r.chars).map (·.chars)

/-- Character class `[\w\.-]` of the UPI-handle regex. -/
def upiWordChar (c : Char) : Bool := wordChar c || c == '.' || c == '-'

/-- The fixed provider suffixes `(ybl|axl|okaxis|oksbi|paytm)`, lower-case.
No provider is a prefix of another, so the alternation is deterministic. -/
def providers : List (List Char) :=
  ["ybl".toList, "axl".toList, "okaxis".toList, "oksbi".toList, "paytm".toList]

/-- Try the provider alternation (case-insensitively) as a prefix of `rest`;
return the number of characters the first matching alternative consumes. -/
def provMatch (rest : List Char) : Option Nat :=
  (providers.find? fun p => pfx p (lower rest)).map List.length

/-- Fuel-driven scanner for
`re.findall(r'([\w\.-]+@(ybl|axl|okaxis|oksbi|paytm))', text, re.I)`,
returning the full match (group 0) of each non-overlapping match, scanning
left to right.  At a position starting a `[\w\.-]` run, the greedy run must
be followed by `@` and a provider; on failure every start inside the run
fails identically, so the scan resumes after the run.  The fuel only bounds
the recursion and never runs out when initialized to the text length. -/
def upiScanF : Nat → List Char → List (List Char)
  | 0, _ => []
  | _, [] => []
  | fuel + 1, c :: cs =>
    if upiWordChar c then
      let lp := c :: cs.takeWhile upiWordChar
      let rest := cs.dropWhile upiWordChar
      match rest with
      | '@' :: rest2 =>
        match provMatch rest2 with
        | some k => (lp ++ '@' :: rest2.take k) :: upiScanF fuel (rest2.drop k)
        | none => upiScanF fuel rest
      | _ => upiScanF fuel rest
    else upiScanF fuel cs

/-- UPI-handle matches of a text (see `upiScanF`). -/
def upiFindall (text : List Char) : List (List Char) :=
  upiScanF text.length text

/-- Python `\s` whitespace on ASCII input. -/
def pySpace (c : Char) : Bool :=
  c == ' ' || c == '\t' || c == '\n' || c == '\r' || c == '\x0b' || c == '\x0c'

/-- Fuel-driven scanner for `re.findall(r'https?://[^\s]+', text)`
(case-sensitive): at each position, a literal `http://` or `https://`
followed by a non-empty greedy run of non-whitespace; on success the scan
resumes after the match, on failure at the next character (no later
`http://` can start inside a just-matched prefix). -/
def urlScanF : Nat → List Char → List (List Char)
  | 0, _ => []
  | _, [] => []
  | fuel + 1, c :: cs =>
    let l := c :: cs
    if pfx "http://".toList l then
      let run := (l.drop 7).takeWhile (fun d => !pySpace d)
      if run.isEmpty then urlScanF fuel cs
      else ("http://".toList ++ run) :: urlScanF fuel ((l.drop 7).dropWhile (fun d => !pySpace d))
    else if pfx "https://".toList l then
      let run := (l.drop 8).takeWhile (fun d => !pySpace d)
      if run.isEmpty then urlScanF fuel cs
      else ("https://".toList ++ run) :: urlScanF fuel ((l.drop 8).dropWhile (fun d => !pySpace d))
    else urlScanF fuel cs

/-- URL matches of a text (see `urlScanF`). -/
def urlFindall (text : List Char) : List (List Char) :=
  urlScanF text.length text

/-- The classifier's pattern table: each regex of `detect_scam` is an
alternation of the listed lower-case literals, searched case-insensitively. -/
def pattern1 : List (List Char) :=
  ["urgent".toList, "verify".toList, "account blocked".toList]

/-- Alternatives of `http[s]?://|www\.`. -/
def pattern2 : List (List Char) :=
  ["http://".toList, "https://".toList, "www.".toList]

/-- Alternatives of `upi|bank|transfer|payment`. -/
def pattern3 : List (List Char) :=
  ["upi".toList, "bank".toList, "transfer".toList, "payment".toList]

/-- `re.search(p, text, re.I)` for an alternation of literals. -/
def reSearchCI (alts : List (List Char)) (text : List Char) : Bool :=
  alts.any fun a => containsSub a (lower text)

/-- The `(pattern, weight)` table of `detect_scam`.  Every weight is an
exact multiple of 1/10 (0.4, 0.5, 0.4), so scores are carried as integer
tenths (4, 5, 4 against threshold 7 and cap 10) to keep the arithmetic
exact and kernel-computable; `confidenceQ` recovers the rational value. -/
def patterns : List (List (List Char) × Nat) :=
  [(pattern1, 4), (pattern2, 5), (pattern3, 4)]

/-- `detect_scam(text)`: fold over the pattern table accumulating the score
and the matched patterns; returns `(score >= 0.7, min(score, 1.0), triggers)`
with the score and its cap in tenths. -/
def detect_scam (text : List Char) : Bool × Nat × List (List (List Char)) :=
  let r := patterns.foldl
    (fun acc pw => if reSearchCI pw.1 text then (acc.1 + pw.2, acc.2 ++ [pw.1]) else acc)
    ((0 : Nat), [])
  (decide (7 ≤ r.1), min r.1 10, r.2)

/-- The confidence the endpoint reports, as a rational in `[0, 1]`. -/
def confidenceQ (text : List Char) : ℚ := ((detect_scam text).2.1 : ℚ) / 10

/-- The spec's phrasing of the confidence before the cap: the sum of the
weights of the matched patterns (in tenths). -/
def matchedWeightSum (text : List Char) : Nat :=
  ((patterns.filter fun pw => reSearchCI pw.1 text).map (·.2)).sum

/-- The sum of the matched pattern weights as a rational. -/
def matchedWeightSumQ (text : List Char) : ℚ := (matchedWeightSum text : ℚ) / 10

/-- One extracted URL record `{"url": u, "is_suspicious": True}`. -/
structure UrlRec where
  url : List Char
  is_suspicious : Bool
deriving DecidableEq, Repr

/-- The dict returned by `extract_intelligence`, fields in insertion order. -/
structure Extracted where
  upi_ids : List (List Char)
  bank_accounts : List (List Char)
  phone_numbers : List (List Char)
  urls : List UrlRec
  keywords : List (List Char)
deriving DecidableEq, Repr

/-- The fixed keyword vocabulary of `extract_intelligence`. -/
def vocab : List (List Char) :=
  ["urgent".toList, "verify".toList, "account".toList, "payment".toList, "click".toList]

/-- `extract_intelligence(text)`: per-field pattern extraction;
`list(set(...))` on the string-valued fields is `List.dedup`, the URL field
wraps each raw match with an unconditional `is_suspicious = True` and is
not deduplicated, keywords are the vocabulary members occurring in the
lower-cased text. -/
def extract_intelligence (text : List Char) : Extracted where
  upi_ids := (upiFindall text).dedup
  bank_accounts := (bankFindall text).dedup
  phone_numbers := (phoneFindall text).dedup
  urls := (urlFindall text).map fun u => ⟨u, true⟩
  keywords := vocab.filter fun k => containsSub k (lower text)

/-- The fixed reply pool of `get_agent_response`. -/
def responsesPool : List String :=
  ["Can you send the details again?",
   "That didn’t work. Do you have another account?",
   "Please confirm the payment method."]

/-- `get_agent_response(is_scam, extracted, turn)` with the random choice
injected as `pick` (index into the non-empty pool, modulo its size). -/
def get_agent_response (is_scam : Bool) (extracted : Extracted) (turn : Nat)
    (pick : Nat) : String × Bool × String :=
  if !is_scam then ("Thanks for the message.", false, "end")
  else
    let should_end := decide (4 ≤ turn)
      && !extracted.upi_ids.isEmpty && !extracted.bank_accounts.isEmpty
    (responsesPool.getD (pick % responsesPool.length) "", true,
      if should_end then "end" else "continue")

/-- One conversation's entry of the process-wide `conversations` dict.  The
`extracted_intelligence` dict is modelled category-by-category (a category
never seen behaves as the empty list `setdefault` installs); `start_time`
is an out-of-scope wall-clock timestamp and is omitted. -/
structure Conv where
  messages : List (List Char × String)
  scam_detected : Bool
  agent_engaged : Bool
  ei_upi : List (List Char)
  ei_bank : List (List Char)
  ei_phone : List (List Char)
  ei_urls : List UrlRec
  ei_keywords : List (List Char)
  callback_sent : Bool
deriving DecidableEq, Repr

/-- The fresh conversation installed on first use of an identifier. -/
def freshConv : Conv where
  messages := []
  scam_detected := false
  agent_engaged := false
  ei_upi := []
  ei_bank := []
  ei_phone := []
  ei_urls := []
  ei_keywords := []
  callback_sent := false

/-- The metrics dict `manage_conversation` returns. -/
structure Metrics where
  turn_count : Nat
  scam_detected : Bool
deriving DecidableEq, Repr

/-- `manage_conversation`: append the turn, latch the scam/engagement
flags, then merge each extracted category in dict order
(`upi_ids, bank_accounts, phone_numbers, urls, keywords`).  Merging the
`urls` category computes `set(old + new)` over `dict` elements, which in
Python raises `TypeError: unhashable type` unless the combined list is
empty; the model returns the conversation as mutated up to that point
together with `none` in place of the metrics (the keywords category is
never reached on that path). -/
def manage_conversation (conv0 : Option Conv) (user_msg : List Char)
    (agent_msg : String) (is_scam : Bool) (extracted : Extracted) :
    Conv × Option Metrics :=
  let conv := conv0.getD freshConv
  let conv := { conv with messages := conv.messages ++ [(user_msg, agent_msg)] }
  let conv := if is_scam then
    { conv with scam_detected := true, agent_engaged := true } else conv
  let conv := { conv with ei_upi := (conv.ei_upi ++ extracted.upi_ids).dedup }
  let conv := { conv with ei_bank := (conv.ei_bank ++ extracted.bank_accounts).dedup }
  let conv := { conv with ei_phone := (conv.ei_phone ++ extracted.phone_numbers).dedup }
  if (conv.ei_urls ++ extracted.urls).isEmpty then
    let conv := { conv with ei_urls := (conv.ei_urls ++ extracted.urls).dedup }
    let conv := { conv with ei_keywords := (conv.ei_keywords ++ extracted.keywords).dedup }
    (conv, some ⟨conv.messages.length, conv.scam_detected⟩)
  else
    (conv, none)

/-- The success test of `send_callback`: the transport outcome is an HTTP
status (`some code`) or a raised exception (`none`, caught and reported as
failure); the source accepts exactly `res.status_code in (200, 201)`. -/
def send_callback_result (outcome : Option Nat) : Bool :=
  match outcome with
  | some code => code == 200 || code == 201
  | none => false

/-- The response payload of the `/api/v1/process` endpoint (timestamp and
echoed conversation id omitted as out of scope; `confidence` in tenths,
see `patterns`/`confidenceQ`). -/
structure ResponseData where
  response_text : String
  scam_detected : Bool
  agent_engaged : Bool
  confidence : Nat
  extracted_data : Extracted
  next_action : String
  metrics : Metrics
deriving DecidableEq, Repr

/-- Result of one `process_message` call on one conversation's state:
the conversation entry after the call, whether the outbound report was
attempted, the send result used, and the HTTP response body (`none` when
the store merge raised and the request failed with an error). -/
structure StepResult where
  conv : Conv
  attempted : Bool
  sendOk : Bool
  response : Option ResponseData
deriving DecidableEq, Repr

/-- The final callback trigger of `process_message` (source lines 197–208):
fire exactly when the updated conversation has `scam_detected`, the
selector's decision is `"end"`, and `callback_sent` is still false; latch
`callback_sent` only when the send reports success. -/
def trigger (conv : Conv) (next_action : String) (outcome : Option Nat)
    (resp : ResponseData) : StepResult :=
  if conv.scam_detected && next_action == "end" && !conv.callback_sent then
    let ok := send_callback_result outcome
    ⟨if ok then { conv with callback_sent := true } else conv, true, ok, some resp⟩
  else
    ⟨conv, false, false, some resp⟩

/-- The tail of `process_message` after the store update: a raised merge
error aborts the request (no response, no trigger) with the partially
mutated conversation; otherwise the trigger runs and the response body is
built. -/
def afterStore (mc : Conv × Option Metrics) (g : String × Bool × String)
    (d : Bool × Nat × List (List (List Char))) (extracted : Extracted)
    (outcome : Option Nat) : StepResult :=
  match mc.2 with
  | none => ⟨mc.1, false, false, none⟩
  | some m => trigger mc.1 g.2.2 outcome ⟨g.1, d.1, g.2.1, d.2.1, extracted, g.2.2, m⟩

/-- `process_message`: classify, extract, compute the 1-based turn number
from the pre-call store, select the reply, update the store, then run the
callback trigger (`afterStore`/`trigger`). -/
def process_message (conv0 : Option Conv) (message_text : List Char)
    (pick : Nat) (outcome : Option Nat) : StepResult :=
  let d := detect_scam message_text
  let extracted := extract_intelligence message_text
  let turn := (match conv0 with | some c => c.messages.length | none => 0) + 1
  let g := get_agent_response d.1 extracted turn pick
  afterStore (manage_conversation conv0 message_text g.1 d.1 extracted) g d extracted outcome

/-! ### Concrete fixtures used in the per-claim theorems -/

/-- A message whose only extractable content is one URL. -/
def urlOnlyText : List Char := "http://x".toList

/-- The same URL twice, separated by a space. -/
def dupUrlText : List Char := "http://a http://a".toList

/-- The spec's first scenario message. -/
def scenarioText : List Char := "URGENT: send to pay@ybl now http://bad.example".toList

/-- The spec's benign scenario message. -/
def hiText : List Char := "Hi, how are you?".toList

/-- A scam-classified message with no URL, no handle and no account. -/
def contText : List Char := "urgent http://".toList

/-- A scam-classified message carrying a payment handle and a 9-digit
account and no URL. -/
def endText : List Char := "urgent bank transfer to a@ybl 123456789".toList

/-- A conversation that already holds three turns. -/
def conv3 : Conv :=
  { freshConv with messages := [("a".toList, "b"), ("c".toList, "d"), ("e".toList, "f")] }

/-- A conversation already holding one accumulated payment handle. -/
def convW7 : Conv := { freshConv with ei_upi := ["x".toList] }

/-- An extraction result with every field empty. -/
def emptyExtracted : Extracted := ⟨[], [], [], [], []⟩

/-- The response `process_message` builds for `contText` on a fresh
conversation with `pick = 0`. -/
def rW3 : ResponseData :=
  ⟨"Can you send the details again?", true, true, 9,
    ⟨[], [], [], [], ["urgent".toList]⟩, "continue", ⟨1, true⟩⟩

/-- The response `process_message` builds for `endText` on `conv3` with
`pick = 0`. -/
def rW4 : ResponseData :=
  ⟨"Can you send the details again?", true, true, 8,
    ⟨["a@ybl".toList], ["123456789".toList], [], [], ["urgent".toList]⟩, "end", ⟨4, true⟩⟩

/-- A list is contained in the deduplication of any right-extension of it:
this is the monotonicity core of the store's `list(set(old + new))` merge. -/
theorem subset_dedup_append {α : Type} [DecidableEq α] (l m : List α) :
    l ⊆ (l ++ m).dedup :=
  fun _ hx => List.mem_dedup.mpr (List.mem_append_left m hx)

/-- Tenths view of the classifier's cap: capping the tenths score at 10 is
capping the rational confidence at 1. -/
theorem tenths_min (n : Nat) : ((min n 10 : Nat) : ℚ)/10 = min ((n : ℚ)/10) 1 := by
  rcases le_total n 10 with h | h
  · rw [min_eq_left h, min_eq_left]
    rw [div_le_one (by norm_num)]
    exact_mod_cast h
  · rw [min_eq_right h, min_eq_right]
    · norm_num
    · rw [le_div_iff₀ (by norm_num)]
      have : ((10 : Nat) : ℚ) ≤ (n : ℚ) := by exact_mod_cast h
      calc (1 : ℚ) * 10 = ((10 : Nat) : ℚ) := by norm_num
        _ ≤ _ := this

/-- Comparing two tenths values is comparing their numerators. -/
theorem tenths_le (a b : Nat) : ((a : ℚ)/10 ≤ (b : ℚ)/10 ↔ a ≤ b) := by
  rw [div_le_div_iff_of_pos_right (by norm_num)]
  exact_mod_cast Iff.rfl

/-- The store update never touches the notification flag. -/
theorem manage_preserves_callback (conv0 : Option Conv) (u : List Char)
    (a : String) (s : Bool) (ex : Extracted) :
    (manage_conversation conv0 u a s ex).1.callback_sent =
      (conv0.getD freshConv).callback_sent := by
  rcases conv0 with _ | c <;> cases s <;>
    simp only [manage_conversation, Option.getD, Bool.false_eq_true, if_false, if_true] <;>
    split <;> rfl

/-- The selector ends a scam-flagged conversation exactly when the turn is
at least 4 and the current extraction has a handle and an account. -/
theorem agent_end_iff (ex : Extracted) (turn pick : Nat) :
    ((get_agent_response true ex turn pick).2.2 = "end" ↔
      (4 ≤ turn ∧ ex.upi_ids ≠ [] ∧ ex.bank_accounts ≠ [])) := by
  simp only [get_agent_response, Bool.not_true, Bool.false_eq_true, if_false]
  by_cases h4 : 4 ≤ turn <;>
    by_cases hu : ex.upi_ids = [] <;>
    by_cases hb : ex.bank_accounts = [] <;>
      simp [h4, hu, hb, List.isEmpty_iff]

/-- The trigger's response field always carries the response it was given. -/
theorem trigger_response (conv : Conv) (na : String) (outcome : Option Nat)
    (resp : ResponseData) :
    (trigger conv na outcome resp).response = some resp := by
  simp only [trigger]
  split <;> rfl

/-- The trigger never changes the scam flag. -/
theorem trigger_scam (conv : Conv) (na : String) (outcome : Option Nat)
    (resp : ResponseData) :
    (trigger conv na outcome resp).conv.scam_detected = conv.scam_detected := by
  simp only [trigger]
  split
  · cases send_callback_result outcome <;> rfl
  · rfl

/-- The trigger fires exactly under the three-way condition of the source. -/
theorem trigger_attempted_iff (conv : Conv) (na : String) (outcome : Option Nat)
    (resp : ResponseData) :
    ((trigger conv na outcome resp).attempted = true ↔
      (conv.scam_detected = true ∧ na = "end" ∧ conv.callback_sent = false)) := by
  simp only [trigger]
  split
  · next h =>
    simp only [Bool.and_eq_true, beq_iff_eq, Bool.not_eq_true'] at h
    exact iff_of_true rfl ⟨h.1.1, h.1.2, h.2⟩
  · next h =>
    simp only [Bool.and_eq_true, beq_iff_eq, Bool.not_eq_true'] at h
    constructor
    · intro hfalse
      cases hfalse
    · intro ⟨h1, h2, h3⟩
      exact absurd ⟨⟨h1, h2⟩, h3⟩ h

/-- The notification flag after the trigger: unchanged unless an attempt
succeeded, in which case it is latched true. -/
theorem trigger_callback (conv : Conv) (na : String) (outcome : Option Nat)
    (resp : ResponseData) :
    (trigger conv na outcome resp).conv.callback_sent =
      (conv.callback_sent ||
        ((trigger conv na outcome resp).attempted && send_callback_result outcome)) := by
  simp only [trigger]
  split
  · next h =>
    simp only [Bool.and_eq_true, beq_iff_eq, Bool.not_eq_true'] at h
    cases hok : send_callback_result outcome <;> simp [h.2]
  · simp

/-- When the trigger fires, the flag afterwards equals the send result. -/
theorem trigger_attempt_sets (conv : Conv) (na : String) (outcome : Option Nat)
    (resp : ResponseData) :
    (trigger conv na outcome resp).attempted = true →
    (trigger conv na outcome resp).conv.callback_sent = send_callback_result outcome := by
  simp only [trigger]
  split
  · next h =>
    simp only [Bool.and_eq_true, beq_iff_eq, Bool.not_eq_true'] at h
    cases hok : send_callback_result outcome <;> simp [hok, h.2]
  · intro hfalse
    cases hfalse

/-- Any response `afterStore` emits carries the selector's decision. -/
theorem afterStore_next_action (mc : Conv × Option Metrics)
    (g : String × Bool × String) (d : Bool × Nat × List (List (List Char)))
    (ex : Extracted) (outcome : Option Nat) (r : ResponseData) :
    (afterStore mc g d ex outcome).response = some r → r.next_action = g.2.2 := by
  rcases mc with ⟨cv, mres⟩
  cases mres with
  | none => intro h; cases h
  | some m =>
    intro h
    rw [afterStore, trigger_response] at h
    cases h
    rfl

/-- The fire condition of one full processing step, on the steps that
complete (emit a response). -/
theorem afterStore_attempted_iff (mc : Conv × Option Metrics)
    (g : String × Bool × String) (d : Bool × Nat × List (List (List Char)))
    (ex : Extracted) (outcome : Option Nat) (r : ResponseData) :
    (afterStore mc g d ex outcome).response = some r →
    ((afterStore mc g d ex outcome).attempted = true ↔
      ((afterStore mc g d ex outcome).conv.scam_detected = true ∧
        r.next_action = "end" ∧ mc.1.callback_sent = false)) := by
  rcases mc with ⟨cv, mres⟩
  cases mres with
  | none => intro h; cases h
  | some m =>
    intro h
    have hna := afterStore_next_action ⟨cv, some m⟩ g d ex outcome r h
    rw [afterStore, trigger_scam, hna]
    exact trigger_attempted_iff cv g.2.2 outcome _

/-- The notification flag across one full processing step. -/
theorem afterStore_callback (mc : Conv × Option Metrics)
    (g : String × Bool × String) (d : Bool × Nat × List (List (List Char)))
    (ex : Extracted) (outcome : Option Nat) :
    (afterStore mc g d ex outcome).conv.callback_sent =
      (mc.1.callback_sent ||
        ((afterStore mc g d ex outcome).attempted && send_callback_result outcome)) := by
  rcases mc with ⟨cv, mres⟩
  cases mres with
  | none => simp [afterStore]
  | some m => exact trigger_callback cv g.2.2 outcome _

/-- One full processing step that attempts the report leaves the flag equal
to the send result. -/
theorem afterStore_attempt_sets (mc : Conv × Option Metrics)
    (g : String × Bool × String) (d : Bool × Nat × List (List (List Char)))
    (ex : Extracted) (outcome : Option Nat) :
    (afterStore mc g d ex outcome).attempted = true →
    (afterStore mc g d ex outcome).conv.callback_sent = send_callback_result outcome := by
  rcases mc with ⟨cv, mres⟩
  cases mres with
  | none => intro h; cases h
  | some m => exact trigger_attempt_sets cv g.2.2 outcome _

/-! ### Per-claim theorems -/

/-- C1. The claim says the Conversation Store's merge cannot fail, in
particular on an extraction with a non-empty URL list.  In the code the
merge applies `set()` to the URL records (Python dicts), raising
`TypeError`; this theorem evaluates the embedded code at the failing
input `"http://x"`: the merge yields no metrics and the processing step
yields no response. -/
theorem C1_merge_raises_on_url :
    (manage_conversation none urlOnlyText "Thanks for the message." false
        (extract_intelligence urlOnlyText)).2 = none ∧
    (extract_intelligence urlOnlyText).urls ≠ [] ∧
    (process_message none urlOnlyText 0 none).response = none := by
  refine ⟨by decide, by decide, by decide⟩

/-- C2. For every text, the classifier's confidence lies in `[0, 1]`,
equals the sum of the matched pattern weights capped at 1, its scam verdict
holds exactly when the confidence is at least 0.7, and the result is a
pure function of the text (two calls agree). -/
theorem C2_classifier_contract (text : List Char) :
    0 ≤ confidenceQ text ∧ confidenceQ text ≤ 1 ∧
    confidenceQ text = min (matchedWeightSumQ text) 1 ∧
    ((detect_scam text).1 = true ↔ (7 : ℚ)/10 ≤ confidenceQ text) ∧
    detect_scam text = detect_scam text := by
  have hsum : (detect_scam text).2.1 = min (matchedWeightSum text) 10 ∧
      ((detect_scam text).1 = true ↔ 7 ≤ matchedWeightSum text) := by
    cases h1 : reSearchCI pattern1 text <;> cases h2 : reSearchCI pattern2 text <;>
      cases h3 : reSearchCI pattern3 text <;>
      simp [detect_scam, patterns, matchedWeightSum, h1, h2, h3]
  have hcast : confidenceQ text = ((min (matchedWeightSum text) 10 : Nat) : ℚ) / 10 := by
    rw [confidenceQ, hsum.1]
  refine ⟨?_, ?_, ?_, ?_, rfl⟩
  · rw [hcast]
    positivity
  · rw [hcast, tenths_min]
    exact min_le_right _ _
  · rw [hcast, matchedWeightSumQ, tenths_min]
  · rw [hsum.2, hcast, tenths_min]
    constructor
    · intro h
      refine le_min ?_ (by norm_num)
      have h7 : ((7 : Nat) : ℚ)/10 ≤ ((matchedWeightSum text : Nat) : ℚ)/10 :=
        (tenths_le 7 (matchedWeightSum text)).mpr h
      calc (7 : ℚ)/10 = ((7 : Nat) : ℚ)/10 := by norm_num
        _ ≤ _ := h7
    · intro h
      have h7 : ((7 : Nat) : ℚ)/10 ≤ ((matchedWeightSum text : Nat) : ℚ)/10 := by
        calc ((7 : Nat) : ℚ)/10 = (7 : ℚ)/10 := by norm_num
          _ ≤ min ((matchedWeightSum text : ℚ)/10) 1 := h
          _ ≤ _ := min_le_left _ _
      exact (tenths_le 7 (matchedWeightSum text)).mp h7

/-- C5 counterexample. The URL list is not deduplicated: the same URL twice
in one message yields two identical URL records. -/
theorem C5_url_list_duplicated :
    ¬ (extract_intelligence dupUrlText).urls.Nodup := by decide

/-- C5 as amended: every list-valued field of an extraction result other
than the URL records (payment handles, bank-account candidates, phone
candidates, keywords) contains no duplicates; the URL list keeps one
record per raw occurrence. -/
theorem C5_dedup_fields (text : List Char) :
    (extract_intelligence text).upi_ids.Nodup ∧
    (extract_intelligence text).bank_accounts.Nodup ∧
    (extract_intelligence text).phone_numbers.Nodup ∧
    (extract_intelligence text).keywords.Nodup := by
  refine ⟨List.nodup_dedup _, List.nodup_dedup _, List.nodup_dedup _, ?_⟩
  exact List.Nodup.filter _ (by decide)

/-- C8. On the spec's scenario message, classifier, extractor and selector
produce exactly the claimed values (scam with confidence 0.9, handle
`pay@ybl`, one unconditionally suspicious URL, decision `continue` at turn
1 for every random pick) — but the full processing step crashes in the
store merge because the URL list is non-empty, so the endpoint never
returns them. -/
theorem C8_scenario : (detect_scam scenarioText).1 = true ∧
    (7 : ℚ)/10 ≤ confidenceQ scenarioText ∧
    "pay@ybl".toList ∈ (extract_intelligence scenarioText).upi_ids ∧
    (extract_intelligence scenarioText).urls =
      [⟨"http://bad.example".toList, true⟩] ∧
    (∀ pick, (get_agent_response true (extract_intelligence scenarioText) 1 pick).2.2
      = "continue") ∧
    (process_message none scenarioText 0 none).response = none := by
  refine ⟨by decide, ?_, by decide, by decide, fun pick => rfl, by decide⟩
  have h9 : (detect_scam scenarioText).2.1 = 9 := by decide
  rw [confidenceQ, h9]
  norm_num

/-- C9. A non-scam message gets the fixed neutral acknowledgement with
`agentEngaged = false` and decision `"end"`; and on the benign scenario
message, the conversation's scam flag stays false and no outbound report
is attempted even though the decision is `"end"` (and even though the
transport would have succeeded). -/
theorem C9_nonscam_no_report :
    (∀ (ex : Extracted) (turn pick : Nat),
      get_agent_response false ex turn pick = ("Thanks for the message.", false, "end")) ∧
    (detect_scam hiText).1 = false ∧
    (process_message none hiText 0 (some 200)).conv.scam_detected = false ∧
    ((process_message none hiText 0 (some 200)).response.map (·.next_action))
      = some "end" ∧
    (process_message none hiText 0 (some 200)).attempted = false := by
  exact ⟨fun ex turn pick => rfl, by decide, by decide, by decide, by decide⟩

/-- C3. Fire-once notification: on every step that completes, the report is
attempted exactly when the conversation's scam flag is set, the decision is
`"end"`, and the flag is still unsent; and across every step (completing or
crashing) the flag afterwards is its old value or-ed with a successful
attempt — so it is set only by a confirmed send, is never reset, flips
false→true at most once over any message sequence, and a failed attempt
leaves it false for a later retry. -/
theorem C3_fire_once (conv0 : Option Conv) (text : List Char) (pick : Nat)
    (outcome : Option Nat) :
    (∀ r : ResponseData,
      (process_message conv0 text pick outcome).response = some r →
      ((process_message conv0 text pick outcome).attempted = true ↔
        ((process_message conv0 text pick outcome).conv.scam_detected = true ∧
         r.next_action = "end" ∧ (conv0.getD freshConv).callback_sent = false))) ∧
    (process_message conv0 text pick outcome).conv.callback_sent =
      ((conv0.getD freshConv).callback_sent ||
        ((process_message conv0 text pick outcome).attempted &&
          send_callback_result outcome)) := by
  constructor
  · intro r hr
    simp only [process_message] at hr ⊢
    have h := afterStore_attempted_iff _ _ _ _ _ r hr
    rwa [manage_preserves_callback] at h
  · simp only [process_message]
    rw [afterStore_callback, manage_preserves_callback]

/-- C3 witness: on a completing scam message whose decision is `continue`
(first turn), the theorem forces `attempted = false`. -/
theorem C3_fire_once_witness :
    (process_message none contText 0 none).attempted = false := by
  have hr : (process_message none contText 0 none).response = some rW3 := by decide
  have h := (C3_fire_once none contText 0 none).1 rW3 hr
  cases hval : (process_message none contText 0 none).attempted
  · rfl
  · exact absurd (h.mp hval).2.1 (by decide)

/-- C4. For scam-flagged messages the selector decides `"end"` exactly when
the turn number is at least 4 and this turn's extraction has at least one
payment handle and at least one account candidate; and inside
`process_message` that turn number is 1-based: the pre-call turn count plus
one ("this is the Nth message"). -/
theorem C4_end_decision :
    (∀ (ex : Extracted) (turn pick : Nat),
      ((get_agent_response true ex turn pick).2.2 = "end" ↔
        (4 ≤ turn ∧ ex.upi_ids ≠ [] ∧ ex.bank_accounts ≠ []))) ∧
    (∀ (conv0 : Option Conv) (text : List Char) (pick : Nat) (outcome : Option Nat)
        (r : ResponseData),
      (detect_scam text).1 = true →
      (process_message conv0 text pick outcome).response = some r →
      (r.next_action = "end" ↔
        (4 ≤ (match conv0 with | some c => c.messages.length | none => 0) + 1 ∧
         (extract_intelligence text).upi_ids ≠ [] ∧
         (extract_intelligence text).bank_accounts ≠ []))) := by
  refine ⟨agent_end_iff, ?_⟩
  intro conv0 text pick outcome r hscam hr
  simp only [process_message] at hr
  have hna := afterStore_next_action _ _ _ _ _ r hr
  rw [hscam] at hna
  rw [hna]
  exact agent_end_iff _ _ _

/-- C4 witness: fourth message of a conversation, carrying a handle and an
account: the theorem forces the decision `"end"`. -/
theorem C4_end_decision_witness :
    (process_message (some conv3) endText 0 (some 200)).response = some rW4 ∧
    rW4.next_action = "end" := by
  have hr : (process_message (some conv3) endText 0 (some 200)).response = some rW4 := by
    decide
  refine ⟨hr, ?_⟩
  have h := (C4_end_decision).2 (some conv3) endText 0 (some 200) rW4 (by decide) hr
  exact h.mpr ⟨by decide, by decide, by decide⟩

/-- C6 counterexample: 204 is a 2xx-class status, yet the code's
acknowledgment test `status_code in (200, 201)` reports failure for it. -/
theorem C6_status_204_fails :
    200 ≤ 204 ∧ 204 ≤ 299 ∧ send_callback_result (some 204) = false := by decide

/-- C6 as amended: the send reports success exactly for HTTP statuses 200
and 201 (any other status — including other 2xx classes — and any raised
transport error reports failure), and an attempted report leaves
`notificationSent` equal to that send result. -/
theorem C6_success_iff_200_201 :
    (∀ outcome : Option Nat,
      send_callback_result outcome = true ↔
        (outcome = some 200 ∨ outcome = some 201)) ∧
    (∀ (conv0 : Option Conv) (text : List Char) (pick : Nat) (outcome : Option Nat),
      (process_message conv0 text pick outcome).attempted = true →
      (process_message conv0 text pick outcome).conv.callback_sent =
        send_callback_result outcome) := by
  constructor
  · intro outcome
    cases outcome with
    | none => simp [send_callback_result]
    | some code => simp [send_callback_result]
  · intro conv0 text pick outcome hat
    simp only [process_message] at hat ⊢
    exact afterStore_attempt_sets _ _ _ _ _ hat

/-- C6 witness: a terminating fourth turn with acknowledgment status 200
latches the notification flag. -/
theorem C6_success_iff_200_201_witness :
    (process_message (some conv3) endText 0 (some 200)).conv.callback_sent = true := by
  have h := (C6_success_iff_200_201).2 (some conv3) endText 0 (some 200) (by decide)
  rw [h]
  decide

/-- C7. Merge monotonicity: every category of the accumulated intelligence
only grows (as a set) across a store merge, and the scam flag after the
merge is its old value or-ed with this message's verdict — so once true it
is never reset. -/
theorem C7_merge_monotone (conv0 : Option Conv) (u : List Char) (a : String)
    (s : Bool) (ex : Extracted) :
    (conv0.getD freshConv).ei_upi ⊆ (manage_conversation conv0 u a s ex).1.ei_upi ∧
    (conv0.getD freshConv).ei_bank ⊆ (manage_conversation conv0 u a s ex).1.ei_bank ∧
    (conv0.getD freshConv).ei_phone ⊆ (manage_conversation conv0 u a s ex).1.ei_phone ∧
    (conv0.getD freshConv).ei_urls ⊆ (manage_conversation conv0 u a s ex).1.ei_urls ∧
    (conv0.getD freshConv).ei_keywords ⊆ (manage_conversation conv0 u a s ex).1.ei_keywords ∧
    (manage_conversation conv0 u a s ex).1.scam_detected =
      ((conv0.getD freshConv).scam_detected || s) := by
  rcases conv0 with _ | c <;> cases s <;>
    simp only [manage_conversation, Option.getD, Bool.false_eq_true, if_false, if_true] <;>
    split <;>
    refine ⟨subset_dedup_append _ _, subset_dedup_append _ _, subset_dedup_append _ _,
      ?_, ?_, by simp⟩ <;>
    first
      | exact subset_dedup_append _ _
      | exact List.Subset.refl _

/-- C7 witness: a previously accumulated handle survives a merge. -/
theorem C7_merge_monotone_witness :
    "x".toList ∈
      (manage_conversation (some convW7) "u".toList "a" true emptyExtracted).1.ei_upi := by
  have h := C7_merge_monotone (some convW7) "u".toList "a" true emptyExtracted
  exact h.1 (by decide)

end Honeypot
